import Mathlib

/-!
# MockKeychain and `print_number`: a shallow embedding and its contract

The first part follows `mock_keychain.h` / `mock_keychain.cpp` (carried inside
`src/crypto/secp256k1/libsecp256k1/src/bench.h`, lines 121-236); the second part follows
the function `print_number` of the same file (lines 37-96).

* `OSStatus` is `int32_t`; no arithmetic is ever done on it, so it is embedded
  as `Int` (every `int32_t` value is an `Int`).
* Bytes (`uint8_t`, `char`) are embedded as their numeric value in `Nat`.
* `std::cout` is embedded as the list of lines written so far.
* `assert` comes from `<cassert>`: it aborts the process when its argument is
  false, unless the translation unit is compiled with `NDEBUG`, in which case
  it expands to nothing.  The build flag is a parameter `ndebug` of the
  only function that uses `assert`.
-/

namespace crypto.apple

/-- Status code of the platform API (`using OSStatus = int32_t;`). -/
abbrev OSStatus := Int

/-- Success sentinel (`enum { noErr = 0 };`). -/
def noErr : OSStatus := 0

/-- Private fields of `class MockKeychain`, with their default member initialisers. -/
structure MockKeychain where
  find_generic_result_ : OSStatus := noErr
  called_add_generic_ : Bool := false
  deriving DecidableEq, Repr

/-- Everything the member functions read or write: the object and `std::cout`. -/
structure World where
  keychain : MockKeychain := {}
  cout : List String := []
  deriving DecidableEq, Repr

/-- Default-constructed keychain (`MockKeychain::MockKeychain() = default`), nothing printed yet. -/
def World.fresh : World := {}

/-- How a call that contains an `assert` ends. -/
inductive Completion (α : Type) where
  | returned (value : α)
  | assertFailed
  deriving DecidableEq, Repr

/-- The array `constexpr char kPassword[] = "mock_password";`: the characters of the
literal followed by the terminating NUL. -/
def kPassword : List Nat := ("mock_password".toList.map Char.toNat) ++ [0]

/-- C `strlen`: number of bytes before the first NUL. -/
def strlen : List Nat → Nat
  | [] => 0
  | c :: cs => if c = 0 then 0 else strlen cs + 1

/-- Line written by the metric hook. -/
def metricLine : String := "[Metrics] Keychain accessed."

/-- Metric hook: `std::cout << "[Metrics] Keychain accessed." << std::endl;`. -/
def IncrementKeychainAccessHistogram (w : World) : World :=
  { w with cout := w.cout ++ [metricLine] }

/-- Number of access-metric events emitted so far. -/
def accessEvents (w : World) : Nat := w.cout.count metricLine

/-- Test helper `set_find_generic_result`: `find_generic_result_ = result;`. -/
def set_find_generic_result (w : World) (result : OSStatus) : World :=
  { w with keychain := { w.keychain with find_generic_result_ := result } }

/-- Test helper `called_add_generic`: `return called_add_generic_;`. -/
def called_add_generic (w : World) : Bool × World :=
  (w.keychain.called_add_generic_, w)

/-- Member `MockKeychain::FindGenericPassword`.  The `std::expected` result is an `Except`:
`Except.ok bytes` for a value, `Except.error status` for `std::unexpected`. -/
def FindGenericPassword (w : World) (_service_name _account_name : String) :
    Except OSStatus (List Nat) × World :=
  let w1 := IncrementKeychainAccessHistogram w
  if w1.keychain.find_generic_result_ = noErr then
    -- std::vector<uint8_t>(start, start + strlen(kPassword))
    (Except.ok (kPassword.take (strlen kPassword)), w1)
  else
    (Except.error w1.keychain.find_generic_result_, w1)

/-- Member `MockKeychain::AddGenericPassword`.  `ndebug` tells whether the translation unit is
compiled with `NDEBUG` (then `assert` expands to nothing).  The returned world is the state
at the return, or at the failing assertion. -/
def AddGenericPassword (ndebug : Bool) (w : World) (_service_name _account_name : String)
    (password : List Nat) : Completion OSStatus × World :=
  let w1 := IncrementKeychainAccessHistogram w
  let w2 : World := { w1 with keychain := { w1.keychain with called_add_generic_ := true } }
  if !ndebug && password.isEmpty then
    (Completion.assertFailed, w2)
  else
    (Completion.returned noErr, w2)

/-- Member `MockKeychain::GetEncryptionPassword`: a `std::string` built from the `const char*`
`kPassword`, that is, its bytes up to the first NUL. -/
def GetEncryptionPassword (w : World) : List Nat × World :=
  let w1 := IncrementKeychainAccessHistogram w
  (kPassword.take (strlen kPassword), w1)

/-- One call made by a client of the keychain. -/
inductive Call where
  | find (service_name account_name : String)
  | add (service_name account_name : String) (password : List Nat)
  | getEncryptionPassword
  | setFindResult (result : OSStatus)
  | calledAdd
  deriving DecidableEq, Repr

/-- Is the call an `AddGenericPassword`? -/
def Call.isAdd : Call → Bool
  | Call.add _ _ _ => true
  | _ => false

/-- Is the call a `set_find_generic_result`? -/
def Call.isSet : Call → Bool
  | Call.setFindResult _ => true
  | _ => false

/-- Is the call one of the three operations `FindGenericPassword`, `AddGenericPassword` with
a non-empty password, `GetEncryptionPassword`? -/
def Call.isOperation : Call → Bool
  | Call.find _ _ => true
  | Call.add _ _ password => !password.isEmpty
  | Call.getEncryptionPassword => true
  | _ => false

/-- Perform one call, forgetting its return value. -/
def step (ndebug : Bool) (w : World) : Call → Completion Unit × World
  | Call.find s a => (Completion.returned (), (FindGenericPassword w s a).2)
  | Call.add s a p =>
      match AddGenericPassword ndebug w s a p with
      | (Completion.returned _, w1) => (Completion.returned (), w1)
      | (Completion.assertFailed, w1) => (Completion.assertFailed, w1)
  | Call.getEncryptionPassword => (Completion.returned (), (GetEncryptionPassword w).2)
  | Call.setFindResult r => (Completion.returned (), set_find_generic_result w r)
  | Call.calledAdd => (Completion.returned (), (called_add_generic w).2)

/-- Perform a sequence of calls in order; a failed assertion ends the process, and the
world is then the one at the point of failure. -/
def runCalls (ndebug : Bool) : World → List Call → Completion Unit × World
  | w, [] => (Completion.returned (), w)
  | w, c :: cs =>
      match step ndebug w c with
      | (Completion.returned _, w1) => runCalls ndebug w1 cs
      | (Completion.assertFailed, w1) => (Completion.assertFailed, w1)

end crypto.apple

/-! ## `print_number` (bench.h, lines 37-96)

`int64_t` values are embedded in `Int`; every operation that could overflow (`-x`, `y * 10`,
`y + rounding`) goes through `int64`, which reports `Fault.signedOverflow` when the exact
result leaves the `int64_t` range.  The `int` counters `c`, `i`, `g` never exceed 30 and are
embedded in `Nat`.  `size_t` is 64 bits wide: `--ptr` wraps from 0 to `2^64 - 1`.  A store to
`buffer[--ptr]` with an index outside the 30 bytes reports `Fault.outOfBounds`.  `/` and `%`
are the truncating C operators (`Int.tdiv`, `Int.tmod`). -/

namespace bench

/-- Least `int64_t` value. -/
def INT64_MIN : Int := -9223372036854775808

/-- Greatest `int64_t` value. -/
def INT64_MAX : Int := 9223372036854775807

/-- Macro `#define FP_EXP (6)`. -/
def FP_EXP : Nat := 6

/-- Macro `#define FP_MULT (1000000LL)`. -/
def FP_MULT : Int := 1000000

/-- Size of the local array `char buffer[30]`. -/
def BUFFER_SIZE : Nat := 30

/-- Greatest `size_t` value. -/
def SIZE_MAX : Nat := 18446744073709551615

/-- Value of `--ptr` for a `size_t`: the decrement wraps from 0 to `SIZE_MAX`. -/
def decrement (ptr : Nat) : Nat := if ptr = 0 then SIZE_MAX else ptr - 1

/-- Undefined behaviour that the embedding detects, and exhaustion of the iteration budget
of the embedding of a loop. -/
inductive Fault where
  | signedOverflow
  | outOfBounds
  | outOfFuel
  deriving DecidableEq, Repr

/-- Result of an `int64_t` operation whose exact value is `v`. -/
def int64 (v : Int) : Except Fault Int :=
  if INT64_MIN ≤ v ∧ v ≤ INT64_MAX then Except.ok v else Except.error Fault.signedOverflow

/-- Statement `x_abs = x < 0 ? -x : x;`. -/
def absolute (x : Int) : Except Fault Int :=
  if x < 0 then int64 (-x) else Except.ok x

/-- Loop `while (y > 0LL && y < 100LL * FP_MULT && c < FP_EXP) { y *= 10LL; c++; }`, with an
iteration budget; the result is the pair `(y, c)` at the exit of the loop. -/
def decimalsLoop : Nat → Int → Nat → Except Fault (Int × Nat)
  | 0, y, c =>
      if 0 < y ∧ y < 100 * FP_MULT ∧ c < FP_EXP then Except.error Fault.outOfFuel
      else Except.ok (y, c)
  | fuel + 1, y, c =>
      if 0 < y ∧ y < 100 * FP_MULT ∧ c < FP_EXP then
        match int64 (y * 10) with
        | Except.ok y1 => decimalsLoop fuel y1 (c + 1)
        | Except.error e => Except.error e
      else Except.ok (y, c)

/-- Number of decimals to show: `y = x_abs; c = 0;` followed by the first loop.  The loop runs
at most `FP_EXP` times since `c` grows by one in each iteration. -/
def decimals (x_abs : Int) : Except Fault Nat :=
  match decimalsLoop FP_EXP x_abs 0 with
  | Except.ok (_, c) => Except.ok c
  | Except.error e => Except.error e

/-- Body of `for (i = c; i < FP_EXP; ++i) { rounding = (y % 10) >= 5; y /= 10; }`, repeated
`n` times; the state is the pair `(y, rounding)`. -/
def roundLoop : Nat → Int → Int → Int × Int
  | 0, y, rounding => (y, rounding)
  | n + 1, y, _ => roundLoop n (y.tdiv 10) (if y.tmod 10 ≥ 5 then 1 else 0)

/-- Rounding step: `y = x_abs; rounding = 0;`, the loop for `i = c, ..., FP_EXP - 1`, and
`y += rounding;`. -/
def rounded (x_abs : Int) (c : Nat) : Except Fault Int :=
  int64 ((roundLoop (FP_EXP - c) x_abs 0).1 + (roundLoop (FP_EXP - c) x_abs 0).2)

/-- Local variables of the formatting part, and the indices of `buffer` stored to so far. -/
structure Format where
  buffer : List Nat
  ptr : Nat
  y : Int
  g : Nat
  writes : List Nat
  deriving DecidableEq, Repr

/-- Conversion of an `int` to the byte stored in a `char`. -/
def toChar (v : Int) : Nat := (v % 256).toNat

/-- Statement `buffer[--ptr] = ch;`. -/
def store (s : Format) (ch : Nat) : Except Fault Format :=
  let ptr := decrement s.ptr
  if ptr < BUFFER_SIZE then
    Except.ok { s with ptr := ptr, buffer := s.buffer.set ptr ch, writes := s.writes ++ [ptr] }
  else Except.error Fault.outOfBounds

/-- Body of `for (i = 0; i < c; ++i) { buffer[--ptr] = '0' + (y % 10); y /= 10; }`, repeated
`n` times. -/
def fractionLoop : Nat → Format → Except Fault Format
  | 0, s => Except.ok s
  | n + 1, s =>
      match store s (toChar (48 + s.y.tmod 10)) with
      | Except.ok s1 => fractionLoop n { s1 with y := s1.y.tdiv 10 }
      | Except.error e => Except.error e

/-- Loop `do { buffer[--ptr] = '0' + (y % 10); y /= 10; g++; } while (y != 0);`, with an
iteration budget. -/
def integerLoop : Nat → Format → Except Fault Format
  | 0, _ => Except.error Fault.outOfFuel
  | fuel + 1, s =>
      match store s (toChar (48 + s.y.tmod 10)) with
      | Except.ok s1 =>
          if s1.y.tdiv 10 ≠ 0 then integerLoop fuel { s1 with y := s1.y.tdiv 10, g := s1.g + 1 }
          else Except.ok { s1 with y := s1.y.tdiv 10, g := s1.g + 1 }
      | Except.error e => Except.error e

/-- Every index stored to so far lies inside the buffer. -/
def Format.Safe (s : Format) : Prop := ∀ i ∈ s.writes, i < BUFFER_SIZE

/-- The C string that starts at `buffer[i]`: the bytes before the first NUL. -/
def cString (buffer : List Nat) (i : Nat) : List Nat :=
  (buffer.drop i).takeWhile (fun b => b ≠ 0)

/-- Output of `printf("%5.*s", g, s)`: at most `g` bytes of `s`, right-justified in 5 columns. -/
def printfPrecision (g : Nat) (s : List Nat) : List Nat :=
  List.replicate (5 - (s.take g).length) 32 ++ s.take g

/-- Output of `printf("%-*s", width, s)`: `s`, left-justified in `width` columns. -/
def printfLeft (width : Nat) (s : List Nat) : List Nat :=
  s ++ List.replicate (width - s.length) 32

/-- What a call of `print_number` did: the bytes sent to `stdout`, and the indices of `buffer`
it stored to, in order. -/
structure Printed where
  out : List Nat
  writes : List Nat
  deriving DecidableEq, Repr

/-- Formatting part of `print_number`, from `ptr = sizeof(buffer) - 1;` to the two `printf`
calls, for the rounded value `y`, `c` decimals and the sign of `x`. -/
def format (x y : Int) (c : Nat) : Except Fault Printed :=
  let s0 : Format :=
    { buffer := (List.replicate BUFFER_SIZE 0).set (BUFFER_SIZE - 1) 0,
      ptr := BUFFER_SIZE - 1, y := y, g := 0, writes := [BUFFER_SIZE - 1] }
  match (if c ≠ 0 then fractionLoop c s0 else store s0 48) with
  | Except.error e => Except.error e
  | Except.ok s1 =>
      match store s1 46 with
      | Except.error e => Except.error e
      | Except.ok s2 =>
          match integerLoop 20 s2 with
          | Except.error e => Except.error e
          | Except.ok s3 =>
              match (if x < 0 then
                      (match store s3 45 with
                       | Except.ok s => Except.ok { s with g := s.g + 1 }
                       | Except.error e => Except.error e)
                     else Except.ok s3) with
              | Except.error e => Except.error e
              | Except.ok s4 =>
                  Except.ok
                    { out := printfPrecision s4.g (cString s4.buffer s4.ptr)
                        ++ printfLeft FP_EXP (cString s4.buffer (s4.ptr + s4.g)),
                      writes := s4.writes }

/-- Function `print_number` ("Format fixed point number"). -/
def print_number (x : Int) : Except Fault Printed :=
  if x = INT64_MIN then
    Except.ok { out := "ERR".toList.map Char.toNat, writes := [] }
  else
    match absolute x with
    | Except.error e => Except.error e
    | Except.ok x_abs =>
        match decimals x_abs with
        | Except.error e => Except.error e
        | Except.ok c =>
            match rounded x_abs c with
            | Except.error e => Except.error e
            | Except.ok y => format x y c

end bench

namespace crypto.apple

/-! ## Basic facts shared by the contract theorems -/

theorem kPassword_bytes :
    kPassword.take (strlen kPassword)
      = [109, 111, 99, 107, 95, 112, 97, 115, 115, 119, 111, 114, 100] := by
  decide

theorem accessEvents_increment (w : World) :
    accessEvents (IncrementKeychainAccessHistogram w) = accessEvents w + 1 := by
  simp [accessEvents, IncrementKeychainAccessHistogram, List.count_append]

theorem keychain_increment (w : World) :
    (IncrementKeychainAccessHistogram w).keychain = w.keychain := rfl

theorem cout_set_find_generic_result (w : World) (r : OSStatus) :
    (set_find_generic_result w r).cout = w.cout := rfl

theorem world_AddGenericPassword (ndebug : Bool) (w : World) (s a : String) (p : List Nat) :
    (AddGenericPassword ndebug w s a p).2
      = { keychain := { find_generic_result_ := w.keychain.find_generic_result_,
                        called_add_generic_ := true },
          cout := w.cout ++ [metricLine] } := by
  unfold AddGenericPassword
  by_cases h : (!ndebug && p.isEmpty) = true <;> simp [h, IncrementKeychainAccessHistogram]

theorem world_step_add (ndebug : Bool) (w : World) (s a : String) (p : List Nat) :
    (step ndebug w (Call.add s a p)).2 = (AddGenericPassword ndebug w s a p).2 := by
  simp only [step]
  rcases h : AddGenericPassword ndebug w s a p with ⟨r, w1⟩
  cases r <;> rfl

theorem step_flag_of_true (ndebug : Bool) (w : World) (c : Call)
    (h : w.keychain.called_add_generic_ = true) :
    (step ndebug w c).2.keychain.called_add_generic_ = true := by
  cases c with
  | find s a =>
      simp only [step, FindGenericPassword, IncrementKeychainAccessHistogram]
      split <;> exact h
  | add s a p =>
      rw [world_step_add, world_AddGenericPassword]
  | getEncryptionPassword => exact h
  | setFindResult r => exact h
  | calledAdd => exact h

theorem step_flag_of_not_add (ndebug : Bool) (w : World) (c : Call) (hc : c.isAdd = false) :
    (step ndebug w c).2.keychain.called_add_generic_ = w.keychain.called_add_generic_ := by
  cases c with
  | find s a =>
      simp only [step, FindGenericPassword, IncrementKeychainAccessHistogram]
      split <;> rfl
  | add s a p => simp [Call.isAdd] at hc
  | getEncryptionPassword => rfl
  | setFindResult r => rfl
  | calledAdd => rfl

theorem step_result_of_not_set (ndebug : Bool) (w : World) (c : Call) (hc : c.isSet = false) :
    (step ndebug w c).2.keychain.find_generic_result_ = w.keychain.find_generic_result_ := by
  cases c with
  | find s a =>
      simp only [step, FindGenericPassword, IncrementKeychainAccessHistogram]
      split <;> rfl
  | add s a p =>
      rw [world_step_add, world_AddGenericPassword]
  | getEncryptionPassword => rfl
  | setFindResult r => simp [Call.isSet] at hc
  | calledAdd => rfl

theorem step_returns_of_not_add (ndebug : Bool) (w : World) (c : Call) (hc : c.isAdd = false) :
    (step ndebug w c).1 = Completion.returned () := by
  cases c with
  | add s a p => simp [Call.isAdd] at hc
  | _ => rfl

theorem runCalls_cons (ndebug : Bool) (w : World) (c : Call) (cs : List Call) :
    runCalls ndebug w (c :: cs)
      = if (step ndebug w c).1 = Completion.assertFailed
        then (Completion.assertFailed, (step ndebug w c).2)
        else runCalls ndebug (step ndebug w c).2 cs := by
  rcases h : step ndebug w c with ⟨r, w1⟩
  cases r <;> simp [runCalls, h]

theorem runCalls_flag_of_true (ndebug : Bool) (calls : List Call) :
    ∀ w : World, w.keychain.called_add_generic_ = true →
      (runCalls ndebug w calls).2.keychain.called_add_generic_ = true := by
  induction calls with
  | nil => intro w h; exact h
  | cons c cs ih =>
      intro w h
      rw [runCalls_cons]
      split
      · exact step_flag_of_true ndebug w c h
      · exact ih _ (step_flag_of_true ndebug w c h)

theorem runCalls_flag_of_no_add (ndebug : Bool) (calls : List Call) :
    ∀ w : World, calls.all (fun c => !c.isAdd) = true →
      (runCalls ndebug w calls).2.keychain.called_add_generic_
        = w.keychain.called_add_generic_ := by
  induction calls with
  | nil => intro w _; rfl
  | cons c cs ih =>
      intro w h
      simp only [List.all_cons, Bool.and_eq_true, Bool.not_eq_true'] at h
      rw [runCalls_cons]
      split
      · exact step_flag_of_not_add ndebug w c h.1
      · rw [ih _ h.2, step_flag_of_not_add ndebug w c h.1]

theorem runCalls_result_of_no_set (ndebug : Bool) (calls : List Call) :
    ∀ w : World, calls.all (fun c => !c.isSet) = true →
      (runCalls ndebug w calls).2.keychain.find_generic_result_
        = w.keychain.find_generic_result_ := by
  induction calls with
  | nil => intro w _; rfl
  | cons c cs ih =>
      intro w h
      simp only [List.all_cons, Bool.and_eq_true, Bool.not_eq_true'] at h
      rw [runCalls_cons]
      split
      · exact step_result_of_not_set ndebug w c h.1
      · rw [ih _ h.2, step_result_of_not_set ndebug w c h.1]

theorem step_of_operation (ndebug : Bool) (w : World) (c : Call) (hc : c.isOperation = true) :
    (step ndebug w c).1 = Completion.returned ()
      ∧ accessEvents (step ndebug w c).2 = accessEvents w + 1 := by
  cases c with
  | find s a =>
      refine ⟨rfl, ?_⟩
      simp only [step, FindGenericPassword]
      split <;> exact accessEvents_increment w
  | add s a p =>
      have hp : p.isEmpty = false := by simpa [Call.isOperation] using hc
      refine ⟨?_, ?_⟩
      · simp [step, AddGenericPassword, hp]
      · rw [world_step_add, world_AddGenericPassword]
        exact accessEvents_increment w
  | getEncryptionPassword => exact ⟨rfl, accessEvents_increment w⟩
  | setFindResult r => simp [Call.isOperation] at hc
  | calledAdd => simp [Call.isOperation] at hc

theorem runCalls_of_operations (ndebug : Bool) (calls : List Call) :
    ∀ w : World, calls.all Call.isOperation = true →
      (runCalls ndebug w calls).1 = Completion.returned ()
        ∧ accessEvents (runCalls ndebug w calls).2 = accessEvents w + calls.length := by
  induction calls with
  | nil => intro w _; exact ⟨rfl, rfl⟩
  | cons c cs ih =>
      intro w h
      simp only [List.all_cons, Bool.and_eq_true] at h
      obtain ⟨h1, h2⟩ := step_of_operation ndebug w c h.1
      rw [runCalls_cons, if_neg (by rw [h1]; exact fun h => nomatch h)]
      refine ⟨(ih _ h.2).1, ?_⟩
      rw [(ih _ h.2).2, h2, List.length_cons]
      omega

theorem find_result_of_state (w : World) (s a : String) :
    (FindGenericPassword w s a).1
      = if w.keychain.find_generic_result_ = noErr
        then Except.ok [109, 111, 99, 107, 95, 112, 97, 115, 115, 119, 111, 114, 100]
        else Except.error w.keychain.find_generic_result_ := by
  simp only [FindGenericPassword, keychain_increment, kPassword_bytes]
  split <;> rfl

theorem all_replicate_find_not_set (k : Nat) (s a : String) :
    (List.replicate k (Call.find s a)).all (fun c => !c.isSet) = true := by
  induction k with
  | zero => rfl
  | succ k ih =>
      rw [List.replicate_succ, List.all_cons, ih]
      rfl

/-! ## Contract theorems -/

/-- C1: for every state and every status `s` other than `noErr`, after
`set_find_generic_result s` a `FindGenericPassword` with any identifiers gives the failure
`std::unexpected(s)`, which carries no byte data. -/
theorem find_after_set_failure (w : World) (s : OSStatus) (service_name account_name : String)
    (hs : s ≠ noErr) :
    (FindGenericPassword (set_find_generic_result w s) service_name account_name).1
        = Except.error s
      ∧ (FindGenericPassword (set_find_generic_result w s) service_name account_name).1.toOption
        = none := by
  have h : (FindGenericPassword (set_find_generic_result w s) service_name account_name).1
      = Except.error s := by
    simp [FindGenericPassword, set_find_generic_result, IncrementKeychainAccessHistogram, hs]
  exact ⟨h, by rw [h]; rfl⟩

theorem find_after_set_failure_witness :
    (FindGenericPassword (set_find_generic_result World.fresh (-25300)) "svc" "user").1
        = Except.error (-25300)
      ∧ (FindGenericPassword (set_find_generic_result World.fresh (-25300)) "svc" "user").1.toOption
        = none :=
  find_after_set_failure World.fresh (-25300) "svc" "user" (by decide)

/-- C2: on a freshly constructed keychain `FindGenericPassword` succeeds for every pair of
identifiers, and the bytes returned are the 13 bytes of "mock_password", with no NUL. -/
theorem find_fresh_success (service_name account_name : String) :
    (FindGenericPassword World.fresh service_name account_name).1
        = Except.ok [109, 111, 99, 107, 95, 112, 97, 115, 115, 119, 111, 114, 100]
      ∧ [109, 111, 99, 107, 95, 112, 97, 115, 115, 119, 111, 114, 100]
        = "mock_password".toList.map Char.toNat
      ∧ ("mock_password".toList.map Char.toNat).length = 13
      ∧ 0 ∉ "mock_password".toList.map Char.toNat := by
  refine ⟨?_, by decide, by decide, by decide⟩
  simp [FindGenericPassword, World.fresh, IncrementKeychainAccessHistogram, kPassword_bytes]

/-- C3: `called_add_generic()` is false on a fresh keychain and stays false through every
sequence of calls that contains no `AddGenericPassword`; after one `AddGenericPassword` it is
true; and once true it is true after every further sequence of calls (find, add,
get-encryption-password, configure, query), so no call resets it. -/
theorem called_add_generic_monotonic :
    (called_add_generic World.fresh).1 = false
      ∧ (∀ (ndebug : Bool) (w : World) (calls : List Call),
          (called_add_generic w).1 = false → calls.all (fun c => !c.isAdd) = true →
          (called_add_generic (runCalls ndebug w calls).2).1 = false)
      ∧ (∀ (ndebug : Bool) (w : World) (s a : String) (p : List Nat),
          (called_add_generic (AddGenericPassword ndebug w s a p).2).1 = true)
      ∧ (∀ (ndebug : Bool) (w : World) (calls : List Call),
          (called_add_generic w).1 = true →
          (called_add_generic (runCalls ndebug w calls).2).1 = true) := by
  refine ⟨rfl, ?_, ?_, ?_⟩
  · intro ndebug w calls hw hcalls
    simp only [called_add_generic] at hw ⊢
    rw [runCalls_flag_of_no_add ndebug calls w hcalls, hw]
  · intro ndebug w s a p
    simp only [called_add_generic]
    rw [world_AddGenericPassword]
  · intro ndebug w calls hw
    exact runCalls_flag_of_true ndebug calls w hw

theorem called_add_generic_monotonic_witness :
    (called_add_generic (runCalls false World.fresh
        [Call.find "svc" "user", Call.setFindResult (-25300), Call.getEncryptionPassword,
         Call.calledAdd]).2).1 = false
      ∧ (called_add_generic (runCalls false
          (AddGenericPassword false World.fresh "svc" "user" [0xDE, 0xAD, 0xBE, 0xEF]).2
          [Call.find "svc" "user", Call.add "svc" "user" [1], Call.setFindResult (-25300),
           Call.getEncryptionPassword, Call.calledAdd, Call.add "svc" "user" []]).2).1 = true :=
  ⟨called_add_generic_monotonic.2.1 false World.fresh _ rfl rfl,
   called_add_generic_monotonic.2.2.2 false _ _
     (called_add_generic_monotonic.2.2.1 false World.fresh "svc" "user" [0xDE, 0xAD, 0xBE, 0xEF])⟩

/-- C4: for every state, all identifiers and every non-empty byte sequence,
`AddGenericPassword` returns `noErr`, whatever find result is configured and whether or not
assertions are compiled in. -/
theorem add_nonempty_returns_noErr (ndebug : Bool) (w : World) (service_name account_name : String)
    (password : List Nat) (hp : password ≠ []) :
    (AddGenericPassword ndebug w service_name account_name password).1
      = Completion.returned noErr := by
  have h : password.isEmpty = false := by
    cases password with
    | nil => exact absurd rfl hp
    | cons b bs => rfl
  simp [AddGenericPassword, h]

theorem add_nonempty_returns_noErr_witness :
    (AddGenericPassword false (set_find_generic_result World.fresh (-25300)) "svc" "user"
        [0xDE, 0xAD, 0xBE, 0xEF]).1 = Completion.returned noErr :=
  add_nonempty_returns_noErr false (set_find_generic_result World.fresh (-25300)) "svc" "user"
    [0xDE, 0xAD, 0xBE, 0xEF] (by decide)

/-- C5 (as stated, refuted): compiled with `NDEBUG`, `AddGenericPassword` on a fresh keychain with
an empty byte sequence does return a normal status code, namely `noErr`. -/
theorem add_empty_returns_under_ndebug :
    (AddGenericPassword true World.fresh "svc" "user" []).1 = Completion.returned noErr
      ∧ (AddGenericPassword true World.fresh "svc" "user" []).1 ≠ Completion.assertFailed := by
  constructor
  · rfl
  · intro h; exact nomatch h

/-- C5 (amended): when assertions are compiled in (no `NDEBUG`), for every state and all
identifiers `AddGenericPassword` with an empty byte sequence ends in the failed assertion and
returns no status code at all; the fail-fast path is taken exactly when assertions are compiled
in, and with `NDEBUG` the same call returns `noErr`. -/
theorem add_empty_fails_assertion (w : World) (service_name account_name : String) :
    (AddGenericPassword false w service_name account_name []).1 = Completion.assertFailed
      ∧ (∀ status : OSStatus,
          (AddGenericPassword false w service_name account_name []).1
            ≠ Completion.returned status)
      ∧ (∀ ndebug : Bool,
          (AddGenericPassword ndebug w service_name account_name []).1 = Completion.assertFailed
            ↔ ndebug = false)
      ∧ (AddGenericPassword true w service_name account_name []).1
          = Completion.returned noErr := by
  refine ⟨rfl, ?_, ?_, rfl⟩
  · intro status h
    exact nomatch h
  · intro ndebug
    cases ndebug
    · exact ⟨fun _ => rfl, fun _ => rfl⟩
    · exact ⟨fun h => (nomatch h), fun h => (nomatch h)⟩

/-- C6: in every state `GetEncryptionPassword` returns, byte for byte, the data that a
successful `FindGenericPassword` returns (in any state and for any identifiers). -/
theorem get_encryption_password_eq_find (w w0 : World) (service_name account_name : String)
    (data : List Nat)
    (h : (FindGenericPassword w0 service_name account_name).1 = Except.ok data) :
    (GetEncryptionPassword w).1 = data := by
  simp only [FindGenericPassword] at h
  split at h
  · simp only [Except.ok.injEq] at h
    exact h
  · exact nomatch h

theorem get_encryption_password_eq_find_witness :
    (GetEncryptionPassword
        (AddGenericPassword false (set_find_generic_result World.fresh (-25300)) "svc" "user"
          [0xDE, 0xAD, 0xBE, 0xEF]).2).1
      = [109, 111, 99, 107, 95, 112, 97, 115, 115, 119, 111, 114, 100] :=
  get_encryption_password_eq_find _ World.fresh "svc" "user" _
    (by simp [FindGenericPassword, World.fresh, IncrementKeychainAccessHistogram, kPassword_bytes])

/-- C7: frame of every operation on the two fields.  `FindGenericPassword` and
`GetEncryptionPassword` leave both fields unchanged; `AddGenericPassword` leaves
`find_generic_result_` unchanged; `set_find_generic_result` and `called_add_generic` leave
`called_add_generic_` unchanged.  Hence a sequence of calls without `set_find_generic_result`
keeps the configured find result, and a sequence without `AddGenericPassword` keeps the flag. -/
theorem frame_of_operations :
    (∀ (w : World) (s a : String), (FindGenericPassword w s a).2.keychain = w.keychain)
      ∧ (∀ w : World, (GetEncryptionPassword w).2.keychain = w.keychain)
      ∧ (∀ (ndebug : Bool) (w : World) (s a : String) (p : List Nat),
          (AddGenericPassword ndebug w s a p).2.keychain.find_generic_result_
            = w.keychain.find_generic_result_)
      ∧ (∀ (w : World) (r : OSStatus),
          (set_find_generic_result w r).keychain.called_add_generic_
            = w.keychain.called_add_generic_)
      ∧ (∀ w : World, (called_add_generic w).2.keychain = w.keychain)
      ∧ (∀ (ndebug : Bool) (w : World) (calls : List Call),
          calls.all (fun c => !c.isSet) = true →
          (runCalls ndebug w calls).2.keychain.find_generic_result_
            = w.keychain.find_generic_result_)
      ∧ (∀ (ndebug : Bool) (w : World) (calls : List Call),
          calls.all (fun c => !c.isAdd) = true →
          (runCalls ndebug w calls).2.keychain.called_add_generic_
            = w.keychain.called_add_generic_) := by
  refine ⟨?_, fun _ => rfl, ?_, fun _ _ => rfl, fun _ => rfl, ?_, ?_⟩
  · intro w s a
    simp only [FindGenericPassword]
    split <;> rfl
  · intro ndebug w s a p
    rw [world_AddGenericPassword]
  · intro ndebug w calls h
    exact runCalls_result_of_no_set ndebug calls w h
  · intro ndebug w calls h
    exact runCalls_flag_of_no_add ndebug calls w h

theorem frame_of_operations_witness :
    (runCalls false (set_find_generic_result World.fresh (-25300))
        [Call.find "svc" "user", Call.add "svc" "user" [0xDE, 0xAD, 0xBE, 0xEF],
         Call.getEncryptionPassword, Call.calledAdd]).2.keychain.find_generic_result_ = -25300
      ∧ (runCalls false World.fresh
          [Call.find "svc" "user", Call.setFindResult (-25300), Call.getEncryptionPassword,
           Call.calledAdd]).2.keychain.called_add_generic_ = false :=
  ⟨frame_of_operations.2.2.2.2.2.1 false (set_find_generic_result World.fresh (-25300)) _ rfl,
   frame_of_operations.2.2.2.2.2.2 false World.fresh _ rfl⟩

/-- C8: the result of `FindGenericPassword` is a function of the configured find result alone:
two states with the same `find_generic_result_` (whatever their add flags and whatever was
printed) and any two pairs of identifiers give equal results. -/
theorem find_depends_only_on_result (w1 w2 : World) (service1 account1 service2 account2 : String)
    (h : w1.keychain.find_generic_result_ = w2.keychain.find_generic_result_) :
    (FindGenericPassword w1 service1 account1).1
      = (FindGenericPassword w2 service2 account2).1 := by
  simp only [FindGenericPassword, keychain_increment, h]
  split <;> rfl

theorem find_depends_only_on_result_witness :
    (FindGenericPassword (set_find_generic_result World.fresh (-25300)) "svc" "user").1
      = (FindGenericPassword
          (set_find_generic_result
            (AddGenericPassword false World.fresh "a" "b" [0xDE, 0xAD, 0xBE, 0xEF]).2 (-25300))
          "myService" "myUser").1 :=
  find_depends_only_on_result _ _ "svc" "user" "myService" "myUser" rfl

/-- C9: each `FindGenericPassword` (success or failure branch), each `AddGenericPassword` with a
non-empty password and each `GetEncryptionPassword` returns and emits exactly one access-metric
event; a sequence of `n` such calls runs to the end and raises the event count by exactly `n`. -/
theorem one_event_per_operation :
    (∀ (w : World) (s a : String),
        accessEvents (FindGenericPassword w s a).2 = accessEvents w + 1)
      ∧ (∀ (ndebug : Bool) (w : World) (s a : String) (p : List Nat), p ≠ [] →
          (AddGenericPassword ndebug w s a p).1 = Completion.returned noErr
            ∧ accessEvents (AddGenericPassword ndebug w s a p).2 = accessEvents w + 1)
      ∧ (∀ w : World, accessEvents (GetEncryptionPassword w).2 = accessEvents w + 1)
      ∧ (∀ (ndebug : Bool) (w : World) (calls : List Call),
          calls.all Call.isOperation = true →
          (runCalls ndebug w calls).1 = Completion.returned ()
            ∧ accessEvents (runCalls ndebug w calls).2 = accessEvents w + calls.length) := by
  refine ⟨?_, ?_, fun w => accessEvents_increment w, ?_⟩
  · intro w s a
    simp only [FindGenericPassword]
    split <;> exact accessEvents_increment w
  · intro ndebug w s a p hp
    have h : p.isEmpty = false := by
      cases p with
      | nil => exact absurd rfl hp
      | cons b bs => rfl
    refine ⟨by simp [AddGenericPassword, h], ?_⟩
    rw [world_AddGenericPassword]
    exact accessEvents_increment w
  · intro ndebug w calls h
    exact runCalls_of_operations ndebug calls w h

theorem one_event_per_operation_witness :
    ((AddGenericPassword false World.fresh "svc" "user" [0xDE, 0xAD, 0xBE, 0xEF]).1
          = Completion.returned noErr
        ∧ accessEvents (AddGenericPassword false World.fresh "svc" "user"
            [0xDE, 0xAD, 0xBE, 0xEF]).2 = accessEvents World.fresh + 1)
      ∧ ((runCalls false (set_find_generic_result World.fresh (-25300))
            [Call.find "svc" "user", Call.add "svc" "user" [0xDE, 0xAD, 0xBE, 0xEF],
             Call.getEncryptionPassword]).1 = Completion.returned ()
        ∧ accessEvents (runCalls false (set_find_generic_result World.fresh (-25300))
            [Call.find "svc" "user", Call.add "svc" "user" [0xDE, 0xAD, 0xBE, 0xEF],
             Call.getEncryptionPassword]).2
          = accessEvents (set_find_generic_result World.fresh (-25300)) + 3) :=
  ⟨one_event_per_operation.2.1 false World.fresh "svc" "user" [0xDE, 0xAD, 0xBE, 0xEF]
      (by decide),
   one_event_per_operation.2.2.2 false (set_find_generic_result World.fresh (-25300))
      [Call.find "svc" "user", Call.add "svc" "user" [0xDE, 0xAD, 0xBE, 0xEF],
       Call.getEncryptionPassword] rfl⟩

/-- C10 (as stated, refuted): on a fresh keychain neither `set_find_generic_result(-25300)` nor
`called_add_generic()` emits an access-metric event: the count stays 0 instead of becoming 1. -/
theorem test_helpers_emit_no_event :
    accessEvents World.fresh = 0
      ∧ accessEvents (set_find_generic_result World.fresh (-25300)) = 0
      ∧ accessEvents (called_add_generic World.fresh).2 = 0
      ∧ accessEvents (set_find_generic_result World.fresh (-25300))
          ≠ accessEvents World.fresh + 1
      ∧ accessEvents (called_add_generic World.fresh).2 ≠ accessEvents World.fresh + 1 := by
  have h0 : accessEvents World.fresh = 0 := rfl
  have h1 : accessEvents (set_find_generic_result World.fresh (-25300)) = 0 := rfl
  have h2 : accessEvents (called_add_generic World.fresh).2 = 0 := rfl
  refine ⟨h0, h1, h2, ?_, ?_⟩
  · rw [h1, h0]; decide
  · rw [h2, h0]; decide

/-- C10 (amended): every invocation of an operation of the operation surface
(`FindGenericPassword`, `AddGenericPassword`, `GetEncryptionPassword`) emits exactly one
access-metric event, while the test-control surface (`set_find_generic_result`,
`called_add_generic`) emits none and leaves `std::cout` untouched. -/
theorem events_per_surface :
    (∀ (w : World) (s a : String),
        accessEvents (FindGenericPassword w s a).2 = accessEvents w + 1)
      ∧ (∀ (ndebug : Bool) (w : World) (s a : String) (p : List Nat),
          accessEvents (AddGenericPassword ndebug w s a p).2 = accessEvents w + 1)
      ∧ (∀ w : World, accessEvents (GetEncryptionPassword w).2 = accessEvents w + 1)
      ∧ (∀ (w : World) (r : OSStatus),
          (set_find_generic_result w r).cout = w.cout
            ∧ accessEvents (set_find_generic_result w r) = accessEvents w)
      ∧ (∀ w : World,
          (called_add_generic w).2.cout = w.cout
            ∧ accessEvents (called_add_generic w).2 = accessEvents w) := by
  refine ⟨?_, ?_, fun w => accessEvents_increment w, fun _ _ => ⟨rfl, rfl⟩,
    fun _ => ⟨rfl, rfl⟩⟩
  · intro w s a
    simp only [FindGenericPassword]
    split <;> exact accessEvents_increment w
  · intro ndebug w s a p
    rw [world_AddGenericPassword]
    exact accessEvents_increment w

/-- C11 (as stated, refuted): there is no state and no non-empty secret for which the fields
`find_generic_result_` and `called_add_generic_` after two consecutive `AddGenericPassword`
calls differ from the fields after one call. -/
theorem add_twice_fields_never_differ :
    ¬ ∃ (ndebug : Bool) (w : World) (s1 a1 s2 a2 : String) (p1 p2 : List Nat),
        p1 ≠ [] ∧ p2 ≠ [] ∧
        (AddGenericPassword ndebug (AddGenericPassword ndebug w s1 a1 p1).2 s2 a2 p2).2.keychain
          ≠ (AddGenericPassword ndebug w s1 a1 p1).2.keychain := by
  rintro ⟨ndebug, w, s1, a1, s2, a2, p1, p2, -, -, h⟩
  apply h
  rw [world_AddGenericPassword, world_AddGenericPassword]

/-- C11 (amended): a second `AddGenericPassword` call with a non-empty secret returns the same
status `noErr` as the first, and for every state the fields `find_generic_result_` and
`called_add_generic_` after two consecutive calls equal the fields after one call (the flag is
sticky); the only state that differs is the access-event count, one higher after the second
call. -/
theorem add_twice_idempotent (ndebug : Bool) (w : World) (s1 a1 s2 a2 : String)
    (p1 p2 : List Nat) (h1 : p1 ≠ []) (h2 : p2 ≠ []) :
    (AddGenericPassword ndebug w s1 a1 p1).1 = Completion.returned noErr
      ∧ (AddGenericPassword ndebug (AddGenericPassword ndebug w s1 a1 p1).2 s2 a2 p2).1
          = (AddGenericPassword ndebug w s1 a1 p1).1
      ∧ (AddGenericPassword ndebug (AddGenericPassword ndebug w s1 a1 p1).2 s2 a2 p2).2.keychain
          = (AddGenericPassword ndebug w s1 a1 p1).2.keychain
      ∧ accessEvents
            (AddGenericPassword ndebug (AddGenericPassword ndebug w s1 a1 p1).2 s2 a2 p2).2
          = accessEvents (AddGenericPassword ndebug w s1 a1 p1).2 + 1 := by
  have e1 : p1.isEmpty = false := by
    cases p1 with
    | nil => exact absurd rfl h1
    | cons b bs => rfl
  have e2 : p2.isEmpty = false := by
    cases p2 with
    | nil => exact absurd rfl h2
    | cons b bs => rfl
  refine ⟨by simp [AddGenericPassword, e1], by simp [AddGenericPassword, e1, e2], ?_, ?_⟩
  · rw [world_AddGenericPassword, world_AddGenericPassword]
  · rw [world_AddGenericPassword ndebug (AddGenericPassword ndebug w s1 a1 p1).2]
    exact accessEvents_increment _

theorem add_twice_idempotent_witness :
    (AddGenericPassword false World.fresh "svc" "user" [0xDE, 0xAD, 0xBE, 0xEF]).1
        = Completion.returned noErr
      ∧ (AddGenericPassword false
            (AddGenericPassword false World.fresh "svc" "user" [0xDE, 0xAD, 0xBE, 0xEF]).2
            "svc" "user" [1]).1
          = (AddGenericPassword false World.fresh "svc" "user" [0xDE, 0xAD, 0xBE, 0xEF]).1
      ∧ (AddGenericPassword false
            (AddGenericPassword false World.fresh "svc" "user" [0xDE, 0xAD, 0xBE, 0xEF]).2
            "svc" "user" [1]).2.keychain
          = (AddGenericPassword false World.fresh "svc" "user" [0xDE, 0xAD, 0xBE, 0xEF]).2.keychain
      ∧ accessEvents
            (AddGenericPassword false
              (AddGenericPassword false World.fresh "svc" "user" [0xDE, 0xAD, 0xBE, 0xEF]).2
              "svc" "user" [1]).2
          = accessEvents
              (AddGenericPassword false World.fresh "svc" "user" [0xDE, 0xAD, 0xBE, 0xEF]).2 + 1 :=
  add_twice_idempotent false World.fresh "svc" "user" "svc" "user" [0xDE, 0xAD, 0xBE, 0xEF] [1]
    (by decide) (by decide)

/-- C12 (as stated, refuted): with assertions compiled in, `AddGenericPassword` on a fresh
keychain with an empty secret ends in the failed assertion: there is no status it returns. -/
theorem add_empty_returns_nothing :
    ¬ ∃ status : OSStatus,
        (AddGenericPassword false World.fresh "svc" "user" []).1 = Completion.returned status := by
  rintro ⟨status, h⟩
  exact nomatch h

/-- C12 (amended): `FindGenericPassword`, `GetEncryptionPassword`, `set_find_generic_result` and
`called_add_generic` return in every state and for every input; `AddGenericPassword` returns a
status exactly when the secret is non-empty or assertions are compiled out (`NDEBUG`), and with
an empty secret and assertions compiled in it ends in the failed assertion instead. -/
theorem operations_return :
    (∀ (w : World) (s a : String),
        (FindGenericPassword w s a).1
          = if w.keychain.find_generic_result_ = noErr
            then Except.ok [109, 111, 99, 107, 95, 112, 97, 115, 115, 119, 111, 114, 100]
            else Except.error w.keychain.find_generic_result_)
      ∧ (∀ w : World,
          (GetEncryptionPassword w).1
            = [109, 111, 99, 107, 95, 112, 97, 115, 115, 119, 111, 114, 100])
      ∧ (∀ (w : World) (r : OSStatus),
          (set_find_generic_result w r).keychain.find_generic_result_ = r)
      ∧ (∀ w : World, (called_add_generic w).1 = w.keychain.called_add_generic_)
      ∧ (∀ (ndebug : Bool) (w : World) (s a : String) (p : List Nat),
          (∃ status : OSStatus, (AddGenericPassword ndebug w s a p).1 = Completion.returned status)
            ↔ (ndebug = true ∨ p ≠ []))
      ∧ (∀ (w : World) (s a : String),
          (AddGenericPassword false w s a []).1 = Completion.assertFailed) := by
  refine ⟨find_result_of_state, ?_, fun _ _ => rfl, fun _ => rfl, ?_, fun _ _ _ => rfl⟩
  · intro w
    simp only [GetEncryptionPassword, kPassword_bytes]
  · intro ndebug w s a p
    cases ndebug <;> cases p <;> simp [AddGenericPassword]

/-- C13: `set_find_generic_result` overwrites the configured result with the value passed and
changes nothing else: after `set_find_generic_result s` the field `find_generic_result_` is `s`,
whatever it was, and the add flag and `std::cout` are as before.  Hence the last write wins:
configuring `s1` and then `s2` gives the same state as configuring `s2` alone, the stored
result is `s2`, and the next `FindGenericPassword` answers for `s2` (the failure `s2` when
`s2` is not `noErr`); in particular, after any code `s1`, configuring `noErr` makes the next
`FindGenericPassword` succeed with the fixed secret. -/
theorem set_find_generic_result_last_write_wins :
    (∀ (w : World) (s1 s2 : OSStatus),
        set_find_generic_result (set_find_generic_result w s1) s2 = set_find_generic_result w s2)
      ∧ (∀ (w : World) (s1 : OSStatus) (service_name account_name : String),
          (FindGenericPassword (set_find_generic_result (set_find_generic_result w s1) noErr)
              service_name account_name).1
            = Except.ok [109, 111, 99, 107, 95, 112, 97, 115, 115, 119, 111, 114, 100])
      ∧ (∀ (w : World) (s : OSStatus),
          set_find_generic_result w s
            = { keychain := { find_generic_result_ := s,
                              called_add_generic_ := w.keychain.called_add_generic_ },
                cout := w.cout })
      ∧ (∀ (w : World) (s1 s2 : OSStatus),
          (set_find_generic_result (set_find_generic_result w s1) s2).keychain.find_generic_result_
            = s2)
      ∧ (∀ (w : World) (s1 s2 : OSStatus) (service_name account_name : String),
          (FindGenericPassword (set_find_generic_result (set_find_generic_result w s1) s2)
              service_name account_name).1
            = if s2 = noErr
              then Except.ok [109, 111, 99, 107, 95, 112, 97, 115, 115, 119, 111, 114, 100]
              else Except.error s2)
      ∧ (FindGenericPassword (set_find_generic_result (set_find_generic_result World.fresh 0)
            (-25300)) "svc" "user").1 = Except.error (-25300)
      ∧ (FindGenericPassword (set_find_generic_result
            (set_find_generic_result World.fresh (-25300)) (-128)) "svc" "user").1
          = Except.error (-128) := by
  have hfind : ∀ (w : World) (s1 s2 : OSStatus) (service_name account_name : String),
      (FindGenericPassword (set_find_generic_result (set_find_generic_result w s1) s2)
          service_name account_name).1
        = if s2 = noErr
          then Except.ok [109, 111, 99, 107, 95, 112, 97, 115, 115, 119, 111, 114, 100]
          else Except.error s2 := by
    intro w s1 s2 service_name account_name
    rw [find_result_of_state]
    rfl
  refine ⟨fun _ _ _ => rfl, ?_, fun _ _ => rfl, fun _ _ _ => rfl, hfind, ?_, ?_⟩
  · intro w s1 service_name account_name
    rw [hfind, if_pos rfl]
  · rw [hfind, if_neg (by decide)]
  · rw [hfind, if_neg (by decide)]

/-- C14: a configured find result is not consumed.  After one `set_find_generic_result s`,
a `FindGenericPassword` made after any sequence of calls that contains no further
`set_find_generic_result` (finds, adds, get-encryption-password, flag queries, in any order)
returns what the first find returns; in particular each of any number of consecutive finds
does. -/
theorem find_result_not_consumed :
    (∀ (ndebug : Bool) (w : World) (s : OSStatus) (calls : List Call) (s1 a1 s2 a2 : String),
        calls.all (fun c => !c.isSet) = true →
        (FindGenericPassword (runCalls ndebug (set_find_generic_result w s) calls).2 s2 a2).1
          = (FindGenericPassword (set_find_generic_result w s) s1 a1).1)
      ∧ (∀ (ndebug : Bool) (w : World) (s : OSStatus) (k : Nat) (s1 a1 : String),
          (FindGenericPassword
              (runCalls ndebug (set_find_generic_result w s)
                (List.replicate k (Call.find s1 a1))).2 s1 a1).1
            = (FindGenericPassword (set_find_generic_result w s) s1 a1).1) := by
  have key : ∀ (ndebug : Bool) (w : World) (s : OSStatus) (calls : List Call)
      (s1 a1 s2 a2 : String), calls.all (fun c => !c.isSet) = true →
      (FindGenericPassword (runCalls ndebug (set_find_generic_result w s) calls).2 s2 a2).1
        = (FindGenericPassword (set_find_generic_result w s) s1 a1).1 := by
    intro ndebug w s calls s1 a1 s2 a2 h
    rw [find_result_of_state, find_result_of_state, runCalls_result_of_no_set ndebug calls _ h]
  exact ⟨key, fun ndebug w s k s1 a1 =>
    key ndebug w s _ s1 a1 s1 a1 (all_replicate_find_not_set k s1 a1)⟩

theorem find_result_not_consumed_witness :
    (FindGenericPassword
        (runCalls false (set_find_generic_result World.fresh (-25300))
          [Call.find "svc" "user", Call.add "svc" "user" [0xDE, 0xAD, 0xBE, 0xEF],
           Call.find "svc" "user", Call.getEncryptionPassword, Call.calledAdd]).2
        "myService" "myUser").1
      = (FindGenericPassword (set_find_generic_result World.fresh (-25300)) "svc" "user").1 :=
  find_result_not_consumed.1 false World.fresh (-25300) _ "svc" "user" "myService" "myUser" rfl

/-- C15: `AddGenericPassword` is not atomic on the contract-violation path.  In every state, a
call with an empty password (assertions compiled in) ends in the failed assertion, and at that
point one access-metric event has been emitted and `called_add_generic_` is already true, the
configured find result being untouched. -/
theorem add_empty_marks_before_assert (w : World) (service_name account_name : String) :
    (AddGenericPassword false w service_name account_name []).1 = Completion.assertFailed
      ∧ (AddGenericPassword false w service_name account_name []).2.keychain.called_add_generic_
          = true
      ∧ (AddGenericPassword false w service_name account_name []).2.cout
          = w.cout ++ [metricLine]
      ∧ accessEvents (AddGenericPassword false w service_name account_name []).2
          = accessEvents w + 1
      ∧ (AddGenericPassword false w service_name account_name []).2.keychain.find_generic_result_
          = w.keychain.find_generic_result_ := by
  refine ⟨rfl, rfl, rfl, ?_, rfl⟩
  rw [world_AddGenericPassword]
  exact accessEvents_increment w

end crypto.apple

namespace bench

/-! ## Facts about the loops of `print_number` -/

theorem int64_ok (v : Int) (h1 : INT64_MIN ≤ v) (h2 : v ≤ INT64_MAX) : int64 v = Except.ok v := by
  simp [int64, h1, h2]

theorem decimalsLoop_step (fuel : Nat) (y : Int) (c : Nat)
    (h1 : 0 < y) (h2 : y < 100000000) (h3 : c < 6) :
    decimalsLoop (fuel + 1) y c = decimalsLoop fuel (y * 10) (c + 1) := by
  have hc : 0 < y ∧ y < 100 * FP_MULT ∧ c < FP_EXP := ⟨h1, by simp only [FP_MULT]; omega, h3⟩
  have hv : int64 (y * 10) = Except.ok (y * 10) :=
    int64_ok _ (by simp only [INT64_MIN]; omega) (by simp only [INT64_MAX]; omega)
  simp only [decimalsLoop, if_pos hc, hv]

theorem decimalsLoop_stop (fuel : Nat) (y : Int) (c : Nat)
    (h : y ≤ 0 ∨ 100000000 ≤ y ∨ 6 ≤ c) :
    decimalsLoop fuel y c = Except.ok (y, c) := by
  have hc : ¬ (0 < y ∧ y < 100 * FP_MULT ∧ c < FP_EXP) := by
    simp only [FP_MULT, FP_EXP]; omega
  cases fuel <;> simp only [decimalsLoop, if_neg hc]

theorem decimals_cases (a : Int) (h0 : 0 ≤ a) :
    ((a = 0 ∨ 100000000 ≤ a) ∧ decimals a = Except.ok 0)
      ∨ (10000000 ≤ a ∧ a < 100000000 ∧ decimals a = Except.ok 1)
      ∨ (1000000 ≤ a ∧ a < 10000000 ∧ decimals a = Except.ok 2)
      ∨ (100000 ≤ a ∧ a < 1000000 ∧ decimals a = Except.ok 3)
      ∨ (10000 ≤ a ∧ a < 100000 ∧ decimals a = Except.ok 4)
      ∨ (1000 ≤ a ∧ a < 10000 ∧ decimals a = Except.ok 5)
      ∨ (1 ≤ a ∧ a < 1000 ∧ decimals a = Except.ok 6) := by
  have hr : (a = 0 ∨ 100000000 ≤ a) ∨ (10000000 ≤ a ∧ a < 100000000)
      ∨ (1000000 ≤ a ∧ a < 10000000) ∨ (100000 ≤ a ∧ a < 1000000)
      ∨ (10000 ≤ a ∧ a < 100000) ∨ (1000 ≤ a ∧ a < 10000) ∨ (1 ≤ a ∧ a < 1000) := by omega
  rcases hr with h | h | h | h | h | h | h
  · refine Or.inl ⟨h, ?_⟩
    simp only [decimals, FP_EXP]
    rw [decimalsLoop_stop _ _ _ (by omega)]
  · refine Or.inr (Or.inl ⟨h.1, h.2, ?_⟩)
    simp only [decimals, FP_EXP]
    rw [decimalsLoop_step _ _ _ (by omega) (by omega) (by omega),
      decimalsLoop_stop _ _ _ (by omega)]
  · refine Or.inr (Or.inr (Or.inl ⟨h.1, h.2, ?_⟩))
    simp only [decimals, FP_EXP]
    rw [decimalsLoop_step _ _ _ (by omega) (by omega) (by omega),
      decimalsLoop_step _ _ _ (by omega) (by omega) (by omega),
      decimalsLoop_stop _ _ _ (by omega)]
  · refine Or.inr (Or.inr (Or.inr (Or.inl ⟨h.1, h.2, ?_⟩)))
    simp only [decimals, FP_EXP]
    rw [decimalsLoop_step _ _ _ (by omega) (by omega) (by omega),
      decimalsLoop_step _ _ _ (by omega) (by omega) (by omega),
      decimalsLoop_step _ _ _ (by omega) (by omega) (by omega),
      decimalsLoop_stop _ _ _ (by omega)]
  · refine Or.inr (Or.inr (Or.inr (Or.inr (Or.inl ⟨h.1, h.2, ?_⟩))))
    simp only [decimals, FP_EXP]
    rw [decimalsLoop_step _ _ _ (by omega) (by omega) (by omega),
      decimalsLoop_step _ _ _ (by omega) (by omega) (by omega),
      decimalsLoop_step _ _ _ (by omega) (by omega) (by omega),
      decimalsLoop_step _ _ _ (by omega) (by omega) (by omega),
      decimalsLoop_stop _ _ _ (by omega)]
  · refine Or.inr (Or.inr (Or.inr (Or.inr (Or.inr (Or.inl ⟨h.1, h.2, ?_⟩)))))
    simp only [decimals, FP_EXP]
    rw [decimalsLoop_step _ _ _ (by omega) (by omega) (by omega),
      decimalsLoop_step _ _ _ (by omega) (by omega) (by omega),
      decimalsLoop_step _ _ _ (by omega) (by omega) (by omega),
      decimalsLoop_step _ _ _ (by omega) (by omega) (by omega),
      decimalsLoop_step _ _ _ (by omega) (by omega) (by omega),
      decimalsLoop_stop _ _ _ (by omega)]
  · refine Or.inr (Or.inr (Or.inr (Or.inr (Or.inr (Or.inr ⟨h.1, h.2, ?_⟩)))))
    simp only [decimals, FP_EXP]
    rw [decimalsLoop_step _ _ _ (by omega) (by omega) (by omega),
      decimalsLoop_step _ _ _ (by omega) (by omega) (by omega),
      decimalsLoop_step _ _ _ (by omega) (by omega) (by omega),
      decimalsLoop_step _ _ _ (by omega) (by omega) (by omega),
      decimalsLoop_step _ _ _ (by omega) (by omega) (by omega),
      decimalsLoop_step _ _ _ (by omega) (by omega) (by omega),
      decimalsLoop_stop _ _ _ (by omega)]

theorem tdiv_ten (y : Int) (h : 0 ≤ y) : y.tdiv 10 = y / 10 :=
  Int.tdiv_eq_ediv h (by decide)

theorem tmod_ten (y : Int) (h : 0 ≤ y) : y.tmod 10 = y % 10 :=
  Int.tmod_eq_emod h (by decide)

theorem roundLoop_succ (n : Nat) (y r : Int) (h : 0 ≤ y) :
    roundLoop (n + 1) y r = roundLoop n (y / 10) (if y % 10 ≥ 5 then 1 else 0) := by
  simp only [roundLoop, tdiv_ten y h, tmod_ten y h]

theorem rounded_six (a : Int) (h0 : 0 ≤ a) (h1 : a ≤ INT64_MAX) :
    rounded a 6 = Except.ok a := by
  simp only [rounded, FP_EXP, Nat.sub_self, roundLoop, add_zero]
  exact int64_ok a (by simp only [INT64_MIN]; omega) h1

theorem rounded_lt_six (a : Int) (c : Nat) (h0 : 0 ≤ a) (h1 : a ≤ INT64_MAX) (hc : c < 6) :
    rounded a c = Except.ok ((a + 5 * 10 ^ (5 - c)) / 10 ^ (6 - c)) := by
  simp only [INT64_MAX] at h1
  have hv : ∀ v : Int, 0 ≤ v → v ≤ a → int64 v = Except.ok v := fun v hv0 hv1 =>
    int64_ok v (by simp only [INT64_MIN]; omega) (by simp only [INT64_MAX]; omega)
  interval_cases c <;> simp only [rounded, FP_EXP, Nat.reduceSub]
  all_goals
    repeat rw [roundLoop_succ _ _ _ (by omega)]
    simp only [roundLoop]
    norm_num
    split
    · rw [hv _ (by omega) (by omega)]
      congr 1
      omega
    · rw [hv _ (by omega) (by omega)]
      congr 1
      omega

theorem absolute_ok (x : Int) (hmin : INT64_MIN < x) (hmax : x ≤ INT64_MAX) :
    absolute x = Except.ok |x| ∧ 0 ≤ |x| ∧ |x| ≤ INT64_MAX := by
  simp only [INT64_MIN, INT64_MAX] at hmin hmax
  by_cases hx : x < 0
  · rw [abs_of_neg hx]
    refine ⟨?_, by omega, by simp only [INT64_MAX]; omega⟩
    simp only [absolute, if_pos hx]
    exact int64_ok _ (by simp only [INT64_MIN]; omega) (by simp only [INT64_MAX]; omega)
  · rw [abs_of_nonneg (by omega)]
    exact ⟨by simp only [absolute, if_neg hx], by omega, by simp only [INT64_MAX]; omega⟩

theorem rounding_core (a : Int) (h0 : 0 ≤ a) (h1 : a ≤ INT64_MAX) :
    ∃ c : Nat, decimals a = Except.ok c ∧ c ≤ 6
      ∧ (c < 6 → a = 0 ∨ 100 * 10 ^ 6 ≤ a * 10 ^ c)
      ∧ (∀ n : Nat, n < c → ¬ (a = 0 ∨ 100 * 10 ^ 6 ≤ a * 10 ^ n))
      ∧ rounded a c = Except.ok (if c = 6 then a else (a + 5 * 10 ^ (5 - c)) / 10 ^ (6 - c)) := by
  rcases decimals_cases a h0 with h | h | h | h | h | h | h
  · refine ⟨0, h.2, by omega, ?_, ?_, ?_⟩
    · intro _; rcases h.1 with h | h
      · exact Or.inl h
      · right; norm_num; omega
    · intro n hn; omega
    · rw [rounded_lt_six a 0 h0 h1 (by omega)]; rfl
  · refine ⟨1, h.2.2, by omega, ?_, ?_, ?_⟩
    · intro _; right; norm_num; omega
    · intro n hn
      have hn0 : n = 0 := by omega
      rw [hn0]
      norm_num
      omega
    · rw [rounded_lt_six a 1 h0 h1 (by omega)]; rfl
  · refine ⟨2, h.2.2, by omega, ?_, ?_, ?_⟩
    · intro _; right; norm_num; omega
    · intro n hn
      interval_cases n <;> norm_num <;> omega
    · rw [rounded_lt_six a 2 h0 h1 (by omega)]; rfl
  · refine ⟨3, h.2.2, by omega, ?_, ?_, ?_⟩
    · intro _; right; norm_num; omega
    · intro n hn
      interval_cases n <;> norm_num <;> omega
    · rw [rounded_lt_six a 3 h0 h1 (by omega)]; rfl
  · refine ⟨4, h.2.2, by omega, ?_, ?_, ?_⟩
    · intro _; right; norm_num; omega
    · intro n hn
      interval_cases n <;> norm_num <;> omega
    · rw [rounded_lt_six a 4 h0 h1 (by omega)]; rfl
  · refine ⟨5, h.2.2, by omega, ?_, ?_, ?_⟩
    · intro _; right; norm_num; omega
    · intro n hn
      interval_cases n <;> norm_num <;> omega
    · rw [rounded_lt_six a 5 h0 h1 (by omega)]; rfl
  · refine ⟨6, h.2.2, by omega, ?_, ?_, ?_⟩
    · intro hc; omega
    · intro n hn
      interval_cases n <;> norm_num <;> omega
    · rw [rounded_six a h0 h1]; rfl

theorem phases_ok (a : Int) (h0 : 0 ≤ a) (h1 : a ≤ INT64_MAX) :
    ∃ (c : Nat) (y : Int), decimals a = Except.ok c ∧ rounded a c = Except.ok y
      ∧ c ≤ 6 ∧ 0 ≤ y ∧ y < 10000000000000 := by
  have h2 := h1
  simp only [INT64_MAX] at h2
  rcases decimals_cases a h0 with h | h | h | h | h | h | h
  · exact ⟨0, _, h.2, rounded_lt_six a 0 h0 h1 (by omega), by omega, by norm_num; omega,
      by norm_num; omega⟩
  · exact ⟨1, _, h.2.2, rounded_lt_six a 1 h0 h1 (by omega), by omega, by norm_num; omega,
      by norm_num; omega⟩
  · exact ⟨2, _, h.2.2, rounded_lt_six a 2 h0 h1 (by omega), by omega, by norm_num; omega,
      by norm_num; omega⟩
  · exact ⟨3, _, h.2.2, rounded_lt_six a 3 h0 h1 (by omega), by omega, by norm_num; omega,
      by norm_num; omega⟩
  · exact ⟨4, _, h.2.2, rounded_lt_six a 4 h0 h1 (by omega), by omega, by norm_num; omega,
      by norm_num; omega⟩
  · exact ⟨5, _, h.2.2, rounded_lt_six a 5 h0 h1 (by omega), by omega, by norm_num; omega,
      by norm_num; omega⟩
  · exact ⟨6, _, h.2.2, rounded_six a h0 h1, by omega, h0, by omega⟩

theorem store_ok (s : Format) (ch : Nat) (h1 : 1 ≤ s.ptr) (h2 : s.ptr ≤ 30) :
    store s ch
      = Except.ok { s with ptr := s.ptr - 1, buffer := s.buffer.set (s.ptr - 1) ch,
                           writes := s.writes ++ [s.ptr - 1] } := by
  have e : decrement s.ptr = s.ptr - 1 := by
    simp only [decrement, if_neg (Nat.pos_iff_ne_zero.mp h1)]
  have hlt : s.ptr - 1 < BUFFER_SIZE := by simp only [BUFFER_SIZE]; omega
  simp only [store, e, if_pos hlt]

theorem safe_append (s : Format) (i : Nat) (hs : s.Safe) (hi : i < 30) (b : List Nat)
    (p : Nat) (y : Int) (g : Nat) :
    Format.Safe { buffer := b, ptr := p, y := y, g := g, writes := s.writes ++ [i] } := by
  intro j hj
  simp only [List.mem_append, List.mem_singleton] at hj
  rcases hj with hj | hj
  · exact hs j hj
  · rw [hj]; exact hi

theorem fractionLoop_succ (n : Nat) (s : Format) (h1 : 1 ≤ s.ptr) (h2 : s.ptr ≤ 30)
    (hy : 0 ≤ s.y) :
    fractionLoop (n + 1) s
      = fractionLoop n { buffer := s.buffer.set (s.ptr - 1) (toChar (48 + s.y % 10)),
                         ptr := s.ptr - 1, y := s.y / 10, g := s.g,
                         writes := s.writes ++ [s.ptr - 1] } := by
  rw [fractionLoop, store_ok s _ h1 h2]
  simp only [tdiv_ten s.y hy, tmod_ten s.y hy]

theorem fractionLoop_ok (n : Nat) :
    ∀ s : Format, n ≤ s.ptr → s.ptr ≤ 30 → 0 ≤ s.y → s.Safe →
      ∃ t, fractionLoop n s = Except.ok t ∧ t.ptr = s.ptr - n ∧ 0 ≤ t.y ∧ t.y ≤ s.y
        ∧ t.Safe := by
  induction n with
  | zero => intro s _ _ hy hs; exact ⟨s, rfl, rfl, hy, le_refl _, hs⟩
  | succ n ih =>
      intro s hn hp hy hs
      rw [fractionLoop_succ n s (by omega) hp hy]
      have hy1 : 0 ≤ s.y / 10 := by omega
      have hy2 : s.y / 10 ≤ s.y := by omega
      obtain ⟨t, ht, hptr, hty, hle, hsafe⟩ :=
        ih { buffer := s.buffer.set (s.ptr - 1) (toChar (48 + s.y % 10)), ptr := s.ptr - 1,
             y := s.y / 10, g := s.g, writes := s.writes ++ [s.ptr - 1] }
          (Nat.le_sub_one_of_lt hn) (le_trans (Nat.sub_le _ _) hp) hy1
          (safe_append s _ hs (by omega) _ _ _ _)
      refine ⟨t, ht, ?_, hty, le_trans hle hy2, hsafe⟩
      rw [hptr]
      show s.ptr - 1 - n = s.ptr - (n + 1)
      omega

theorem integerLoop_succ (fuel : Nat) (s : Format) (h1 : 1 ≤ s.ptr) (h2 : s.ptr ≤ 30)
    (hy : 0 ≤ s.y) :
    integerLoop (fuel + 1) s
      = if s.y / 10 ≠ 0 then
          integerLoop fuel { buffer := s.buffer.set (s.ptr - 1) (toChar (48 + s.y % 10)),
                             ptr := s.ptr - 1, y := s.y / 10, g := s.g + 1,
                             writes := s.writes ++ [s.ptr - 1] }
        else
          Except.ok { buffer := s.buffer.set (s.ptr - 1) (toChar (48 + s.y % 10)),
                      ptr := s.ptr - 1, y := s.y / 10, g := s.g + 1,
                      writes := s.writes ++ [s.ptr - 1] } := by
  rw [integerLoop, store_ok s _ h1 h2]
  simp only [tdiv_ten s.y hy, tmod_ten s.y hy]

theorem integerLoop_ok (fuel : Nat) :
    ∀ s : Format, 0 ≤ s.y → s.y < 10 ^ (fuel + 1) → fuel + 1 ≤ s.ptr → s.ptr ≤ 30 → s.Safe →
      ∃ t, integerLoop (fuel + 1) s = Except.ok t ∧ s.ptr - (fuel + 1) ≤ t.ptr ∧ t.ptr ≤ 30
        ∧ t.Safe := by
  induction fuel with
  | zero =>
      intro s hy hlt hn hp hs
      have h10 : s.y / 10 = 0 := by
        norm_num at hlt
        omega
      rw [integerLoop_succ 0 s (by omega) hp hy, if_neg (by simp [h10])]
      exact ⟨_, rfl, by simp only; omega, by simp only; omega,
        safe_append s _ hs (by omega) _ _ _ _⟩
  | succ fuel ih =>
      intro s hy hlt hn hp hs
      rw [integerLoop_succ (fuel + 1) s (by omega) hp hy]
      by_cases h10 : s.y / 10 = 0
      · rw [if_neg (by simp [h10])]
        exact ⟨_, rfl, by simp only; omega, by simp only; omega,
          safe_append s _ hs (by omega) _ _ _ _⟩
      · rw [if_pos h10]
        have hpow : (10 : Int) ^ (fuel + 1 + 1) = 10 ^ (fuel + 1) * 10 := pow_succ _ _
        have hy1 : 0 ≤ s.y / 10 := by omega
        have hy2 : s.y / 10 < 10 ^ (fuel + 1) := by
          rw [hpow] at hlt
          generalize (10 : Int) ^ (fuel + 1) = P at hlt ⊢
          omega
        obtain ⟨t, ht, hptr, hle, hsafe⟩ :=
          ih { buffer := s.buffer.set (s.ptr - 1) (toChar (48 + s.y % 10)), ptr := s.ptr - 1,
               y := s.y / 10, g := s.g + 1, writes := s.writes ++ [s.ptr - 1] }
            hy1 hy2 (Nat.le_sub_one_of_lt hn) (le_trans (Nat.sub_le _ _) hp)
            (safe_append s _ hs (by omega) _ _ _ _)
        refine ⟨t, ht, ?_, hle, hsafe⟩
        have : s.ptr - 1 - (fuel + 1) ≤ t.ptr := hptr
        omega

theorem format_ok (x y : Int) (c : Nat) (hy0 : 0 ≤ y) (hy : y < 10000000000000)
    (hc : c ≤ 6) :
    ∃ r, format x y c = Except.ok r ∧ ∀ i ∈ r.writes, i < BUFFER_SIZE := by
  obtain ⟨s0, hs0⟩ : ∃ s0 : Format, s0 =
      { buffer := (List.replicate BUFFER_SIZE 0).set (BUFFER_SIZE - 1) 0,
        ptr := BUFFER_SIZE - 1, y := y, g := 0, writes := [BUFFER_SIZE - 1] } := ⟨_, rfl⟩
  have hptr0 : s0.ptr = 29 := by rw [hs0]; rfl
  have hy00 : s0.y = y := by rw [hs0]
  have hsafe0 : s0.Safe := by
    intro i hi
    rw [hs0] at hi
    simp only [List.mem_singleton] at hi
    rw [hi]
    decide
  have h1 : ∃ s1, (if c ≠ 0 then fractionLoop c s0 else store s0 48) = Except.ok s1
      ∧ 23 ≤ s1.ptr ∧ s1.ptr ≤ 30 ∧ 0 ≤ s1.y ∧ s1.y ≤ y ∧ s1.Safe := by
    by_cases h : c = 0
    · rw [if_neg (by simp [h]), store_ok _ _ (by omega) (by omega)]
      exact ⟨_, rfl, by simp only; omega, by simp only; omega, by simp only; omega,
        by simp only; omega, safe_append _ _ hsafe0 (by omega) _ _ _ _⟩
    · rw [if_pos h]
      obtain ⟨t, ht, hptr, hty, hle, hsafe⟩ := fractionLoop_ok c s0 (by omega) (by omega)
        (by omega) hsafe0
      exact ⟨t, ht, by omega, by omega, hty, by omega, hsafe⟩
  obtain ⟨s1, e1, hp1, hq1, hy1, hle1, hsafe1⟩ := h1
  have e2 := store_ok s1 46 (by omega) hq1
  obtain ⟨s3, e3, hp3, hq3, hsafe3⟩ := integerLoop_ok 19
    { buffer := s1.buffer.set (s1.ptr - 1) 46, ptr := s1.ptr - 1, y := s1.y, g := s1.g,
      writes := s1.writes ++ [s1.ptr - 1] }
    hy1 (by norm_num; exact lt_of_le_of_lt hle1 (by omega)) (by simp only; omega)
    (by simp only; omega) (safe_append s1 _ hsafe1 (by omega) _ _ _ _)
  simp only at hp3
  by_cases hx : x < 0
  · have hf : format x y c = Except.ok
        { out := printfPrecision (s3.g + 1) (cString (s3.buffer.set (s3.ptr - 1) 45) (s3.ptr - 1))
            ++ printfLeft FP_EXP
                (cString (s3.buffer.set (s3.ptr - 1) 45) (s3.ptr - 1 + (s3.g + 1))),
          writes := s3.writes ++ [s3.ptr - 1] } := by
      simp only [format, ← hs0, e1, e2, e3, if_pos hx, store_ok s3 45 (by omega) hq3]
    exact ⟨_, hf, safe_append s3 _ hsafe3 (by omega) [] 0 0 0⟩
  · have hf : format x y c = Except.ok
        { out := printfPrecision s3.g (cString s3.buffer s3.ptr)
            ++ printfLeft FP_EXP (cString s3.buffer (s3.ptr + s3.g)),
          writes := s3.writes } := by
      simp only [format, ← hs0, e1, e2, e3, if_neg hx]
    exact ⟨_, hf, hsafe3⟩

/-! ## Sample runs of `print_number` -/

theorem print_number_one_and_a_half :
    print_number 1500000
      = Except.ok { out := "    1.50   ".toList.map Char.toNat,
                    writes := [29, 28, 27, 26, 25] } := by
  rfl

theorem print_number_carry :
    print_number (-999999)
      = Except.ok { out := "   -1.000  ".toList.map Char.toNat,
                    writes := [29, 28, 27, 26, 25, 24, 23] } := by
  rfl

theorem print_number_longest :
    print_number (-9223372036854775807)
      = Except.ok { out := "-9223372036855.0    ".toList.map Char.toNat,
                    writes := [29, 28, 27, 26, 25, 24, 23, 22, 21, 20, 19, 18, 17, 16, 15, 14,
                               13] } := by
  rfl

theorem print_number_int64_min :
    print_number INT64_MIN = Except.ok { out := "ERR".toList.map Char.toNat, writes := [] } := by
  rfl

/-! ## Contract theorems for `print_number` -/

/-- C16: rounding in `print_number` is round-half-up of the 6-decimal fixed-point magnitude.  For
every `int64_t` value `x` other than `INT64_MIN`, with `a = |x|`: the first loop chooses `c`,
the least `n` in `0..6` with `a = 0` or `a * 10^n >= 100 * 10^6` (and 6 when there is none
below 6), and the value `y` after the rounding step is `a` when `c = 6` and
`floor((a + 5 * 10^(5-c)) / 10^(6-c))` when `c < 6`. -/
theorem rounding_is_half_up (x : Int) (hmin : INT64_MIN < x) (hmax : x ≤ INT64_MAX) :
    absolute x = Except.ok |x|
      ∧ ∃ c : Nat, decimals |x| = Except.ok c ∧ c ≤ 6
          ∧ (c < 6 → |x| = 0 ∨ 100 * 10 ^ 6 ≤ |x| * 10 ^ c)
          ∧ (∀ n : Nat, n < c → ¬ (|x| = 0 ∨ 100 * 10 ^ 6 ≤ |x| * 10 ^ n))
          ∧ rounded |x| c
              = Except.ok (if c = 6 then |x| else (|x| + 5 * 10 ^ (5 - c)) / 10 ^ (6 - c)) := by
  obtain ⟨ha, h0, h1⟩ := absolute_ok x hmin hmax
  exact ⟨ha, rounding_core |x| h0 h1⟩

theorem rounding_is_half_up_witness :
    absolute (-99999999) = Except.ok |(-99999999 : Int)|
      ∧ ∃ c : Nat, decimals |(-99999999 : Int)| = Except.ok c ∧ c ≤ 6
          ∧ (c < 6 → |(-99999999 : Int)| = 0 ∨ 100 * 10 ^ 6 ≤ |(-99999999 : Int)| * 10 ^ c)
          ∧ (∀ n : Nat, n < c →
              ¬ (|(-99999999 : Int)| = 0 ∨ 100 * 10 ^ 6 ≤ |(-99999999 : Int)| * 10 ^ n))
          ∧ rounded |(-99999999 : Int)| c
              = Except.ok (if c = 6 then |(-99999999 : Int)|
                  else (|(-99999999 : Int)| + 5 * 10 ^ (5 - c)) / 10 ^ (6 - c)) :=
  rounding_is_half_up (-99999999) (by decide) (by decide)

/-- C17: `print_number` never stores outside its 30-byte buffer and never overflows `int64_t`.
For every `int64_t` value `x` the embedded function ends without a fault (no store
`buffer[--ptr]` with an index outside `0..29`, no overflow in `-x`, `y * 10` or
`y + rounding`, no loop beyond its budget), every index it stored to is below 30, and every
phase ends without a fault when `x` is not `INT64_MIN`; for `x = INT64_MIN` it prints `ERR`
and stores nothing. -/
theorem print_number_in_bounds (x : Int) (hmin : INT64_MIN ≤ x) (hmax : x ≤ INT64_MAX) :
    ∃ r : Printed, print_number x = Except.ok r
      ∧ (∀ i ∈ r.writes, i < BUFFER_SIZE)
      ∧ (x = INT64_MIN → r.out = "ERR".toList.map Char.toNat ∧ r.writes = [])
      ∧ (x ≠ INT64_MIN →
          ∃ (c : Nat) (y : Int), absolute x = Except.ok |x| ∧ decimals |x| = Except.ok c
            ∧ rounded |x| c = Except.ok y ∧ format x y c = Except.ok r) := by
  by_cases hx : x = INT64_MIN
  · refine ⟨{ out := "ERR".toList.map Char.toNat, writes := [] }, ?_, ?_, ?_, ?_⟩
    · simp only [print_number, if_pos hx]
    · intro i hi
      exact absurd hi (List.not_mem_nil i)
    · intro _
      exact ⟨rfl, rfl⟩
    · intro h
      exact absurd hx h
  · obtain ⟨ha, h0, h1⟩ := absolute_ok x (lt_of_le_of_ne hmin (Ne.symm hx)) hmax
    obtain ⟨c, y, hc, hy, hc6, hy0, hylt⟩ := phases_ok |x| h0 h1
    obtain ⟨r, hr, hw⟩ := format_ok x y c hy0 hylt hc6
    refine ⟨r, ?_, hw, fun h => absurd h hx, fun _ => ⟨c, y, ha, hc, hy, hr⟩⟩
    simp only [print_number, if_neg hx, ha, hc, hy, hr]

theorem print_number_in_bounds_witness :
    ∃ r : Printed, print_number (-9223372036854775807) = Except.ok r
      ∧ (∀ i ∈ r.writes, i < BUFFER_SIZE)
      ∧ ((-9223372036854775807 : Int) = INT64_MIN →
          r.out = "ERR".toList.map Char.toNat ∧ r.writes = [])
      ∧ ((-9223372036854775807 : Int) ≠ INT64_MIN →
          ∃ (c : Nat) (y : Int),
            absolute (-9223372036854775807) = Except.ok |(-9223372036854775807 : Int)|
            ∧ decimals |(-9223372036854775807 : Int)| = Except.ok c
            ∧ rounded |(-9223372036854775807 : Int)| c = Except.ok y
            ∧ format (-9223372036854775807) y c = Except.ok r) :=
  print_number_in_bounds (-9223372036854775807) (by decide) (by decide)

end bench
